import Mathlib

/-!
# Verification of `src/evaluation/trecvid11_evaluation.py`

Shallow embedding of the `TrecVid11Evaluation` class.  Labels are modelled as
`List Int`, Gram matrices as `List (List ℚ)` (row lists), and NumPy boolean
masks as `List Bool`.  The external collaborators (the SVM solver
`sklearn.svm.SVC` and the average-precision scorer `rff.get_ap`) are
abstracted as oracle functions: a classifier fit/score round-trip inside the
cross-validation loop is a function from the tried exponent to the held-out
score, and `predict` is a function from a kernel row to a label.  Python
`assert` failures and exceptions are modelled with `Except String`.
-/

namespace TrecVid11

/-- Row-major rational matrix standing for a NumPy 2-d array. -/
abbrev Mat := List (List ℚ)

/-- `self.null_class_idx = 15` set in `__init__`. -/
def null_class_idx : Int := 15

/-- NumPy boolean-mask indexing `xs[mask]` (the two lists have equal length
at every call site; extra elements of either list are ignored). -/
def applyMask : List α → List Bool → List α
  | [], _ => []
  | _, [] => []
  | a :: l, b :: m => if b then a :: applyMask l m else applyMask l m

/-- Number of `True` entries of a boolean mask. -/
def countTrue (m : List Bool) : Nat := m.count true

/-- `len(set(cc))`, the number of distinct labels. -/
def nrClassesOf (cc : List Int) : Nat := cc.dedup.length

/-- `M, N = K.shape` : number of rows. -/
def shapeM (K : Mat) : Nat := K.length

/-- `M, N = K.shape` : number of columns (of a rectangular array). -/
def shapeN (K : Mat) : Nat := (K.headD []).length

/-- `K[np.ix_(m, m)]` : symmetric row/column slice of a square matrix. -/
def sliceSquare (K : Mat) (m : List Bool) : Mat :=
  (applyMask K m).map (fun row => applyMask row m)

/-- `K[np.ix_(rm, cm)]` : row slice by `rm`, column slice by `cm`. -/
def sliceRect (K : Mat) (rm cm : List Bool) : Mat :=
  (applyMask K rm).map (fun row => applyMask row cm)

/-! ## The shared cross-validated hyperparameter search loop

Both `_crossvalidate_C_one_vs_rest` and `_crossvalidate_C_one_vs_one` run the
identical candidate loop

```
log3cs = arange(-2, 8)
best_score = - Inf
best_C = 0
for log3c in log3cs:
    self.clf.C = 3 ** log3c
    ... fit on the training split, score on the held-out split ...
    if score >= best_score:
        best_score = score
        best_C = self.clf.C
```

The fit/score round-trip is abstracted as an oracle `s : Int → ℚ` giving the
held-out score obtained with `C = 3 ** log3c`.  `best_score = -Inf` is
modelled as `Option ℚ` with `none` for `-Inf` (every rational score passes
the `>=` test against `-Inf`).  `clfC` is the classifier's mutable `C`
attribute, written on every iteration.
-/

/-- `3 ** log3c` as an exact rational. -/
def pow3 (k : Int) : ℚ := (3 : ℚ) ^ k

/-- `log3cs = arange(-2, 8)`. -/
def log3cs : List Int := [-2, -1, 0, 1, 2, 3, 4, 5, 6, 7]

/-- Loop state: `best_score` (`none` = `-Inf`), `best_C`, and the
classifier's mutable `C` attribute. -/
structure CVState where
  bestScore : Option ℚ
  bestC : ℚ
  clfC : ℚ
deriving DecidableEq

/-- One iteration of the candidate loop: write `C`, fit and score (the
oracle), and update on `score >= best_score`, where a comparison against
`best_score = -Inf` (the `none` case) is always true. -/
def cvStep (s : Int → ℚ) (st : CVState) (k : Int) : CVState :=
  match st.bestScore with
  | none => ⟨some (s k), pow3 k, pow3 k⟩
  | some b => if b ≤ s k then ⟨some (s k), pow3 k, pow3 k⟩
              else ⟨st.bestScore, st.bestC, pow3 k⟩

/-- State before the loop: `best_score = -Inf`, `best_C = 0`, and the
classifier still carries the `svm.SVC` default `C = 1.0`. -/
def cvInit : CVState := ⟨none, 0, 1⟩

/-- The whole candidate loop of either cross-validation routine. -/
def crossvalidateC (s : Int → ℚ) : CVState := log3cs.foldl (cvStep s) cvInit

/-! ## The stratified binary split of `_crossvalidate_C_one_vs_rest` -/

/-- `ceil(pp * n)` for `pp = 0.3`, as a natural number.  The double closest
to `0.3` is marginally below `3/10`, but for every `n` the product either
rounds back onto the exact value or stays within `10⁻¹⁵` below it, and the
nearest integer not equal to `3n/10` is at distance at least `1/10`, so the
ceiling agrees with the exact rational ceiling `(3n + 9) / 10` for all `n`. -/
def ceil3over10 (n : Nat) : Nat := (3 * n + 9) / 10

/-- `[ii for ii, ci in enumerate(cc) if ci == v]`. -/
def idxsOfLabel (cc : List Int) (v : Int) : List Nat :=
  (((List.range cc.length).zip cc).filter (fun p => p.2 == v)).map (fun p => p.1)

/-- The split block of `_crossvalidate_C_one_vs_rest`, applied to the two
randomly permuted per-class index lists `rand_idxs_0` and `rand_idxs_1`
(the results of `np.random.permutation`, threaded in as inputs):

```
P0 = ceil(pp * len(rand_idxs_0)); P1 = ceil(pp * len(rand_idxs_1))
cv_idxs = np.hstack((rand_idxs_0[:P0], rand_idxs_1[:P1]))
tr_idxs = np.hstack((rand_idxs_0[P0:], rand_idxs_1[P1:]))
```

Returns `(cv_idxs, tr_idxs)`. -/
def cvSplit (rand0 rand1 : List Nat) : List Nat × List Nat :=
  let P0 := ceil3over10 rand0.length
  let P1 := ceil3over10 rand1.length
  (rand0.take P0 ++ rand1.take P1, rand0.drop P0 ++ rand1.drop P1)

/-! ## The two cross-validation routines

After their asserts, both routines compute a random split (which influences
the C search only through the external classifier's scores, folded into the
oracle `s`) and run the shared candidate loop; the selected `best_C` is
returned.  The two Python `assert` statements are modelled in source order
as `Except.error`. -/

/-- `_crossvalidate_C_one_vs_rest(K, cc, idx_clf)` up to its returned
`best_C`.  `s` is the score oracle for this binary sub-problem. -/
def crossvalidate_C_one_vs_rest (K : Mat) (cc : List Int) (s : Int → ℚ) :
    Except String ℚ :=
  if shapeM K ≠ shapeN K then .error "K is not Gram matrix."
  else if nrClassesOf cc ≠ 2 then .error "Number of classes is not two."
  else .ok (crossvalidateC s).bestC

/-- `_crossvalidate_C_one_vs_one(K, cc)` up to its returned `best_C`. -/
def crossvalidate_C_one_vs_one (K : Mat) (cc : List Int) (s : Int → ℚ) :
    Except String ℚ :=
  if shapeM K ≠ shapeN K then .error "K is not Gram matrix."
  else if nrClassesOf cc < 2 then .error "Number of classes is less than two."
  else .ok (crossvalidateC s).bestC

/-! ## The one-vs-null (`versus_null`) fit -/

/-- Record of one fitted `svm.SVC`: its final `C` and the labels and sample
weights passed to its last `fit` call. -/
structure SVC where
  C : ℚ
  fitLabels : List Int
  fitWeights : List ℚ
deriving DecidableEq

/-- `good_idxs = (cx == ii) | (cx == self.null_class_idx)`. -/
def goodIdxsRest (cx : List Int) (ii : Int) : List Bool :=
  cx.map (fun c => c == ii || c == null_class_idx)

/-- `map(lambda label: +1 if label != self.null_class_idx else -1, cx[good_idxs])`. -/
def remapLabels (cx : List Int) (m : List Bool) : List Int :=
  (applyMask cx m).map (fun l => if l ≠ null_class_idx then 1 else -1)

/-- The sample weights of the final per-class fit in `_fit_one_vs_rest`.
The source is

```
weight = np.ones(nr_ii)
weight[cx_ == +1] *= nr_null_samples
```

but `cx_` here is a Python list (the result of `map`), not an ndarray, so
`cx_ == +1` evaluates to the scalar `False`, and under the NumPy of this
code's era a Boolean scalar indexes as the integer 0: only `weight[0]` is
scaled by `nr_null_samples`, whatever the label of the first sliced sample.
(Under current NumPy the assignment is an empty no-op instead; on either
reading no `+1` sample beyond position 0 is ever scaled.)  We embed the
historical behaviour. -/
def fitRestWeights (nrIi nrNull : Nat) : List ℚ :=
  match List.replicate nrIi (1 : ℚ) with
  | [] => []
  | w :: ws => (w * nrNull) :: ws

/-- State built by `_fit_one_vs_rest`: `self.nr_classes`, the classifier
bank `self.clf` and the stored masks `self.cx_idxs`. -/
structure RestFit where
  nr_classes : Nat
  clf : List SVC
  cx_idxs : List (List Bool)
deriving DecidableEq

/-- The `SVC` record produced for class `ii` by `_fit_one_vs_rest` when its
cross-validation succeeds: `C` is the selected best `C`, and the final fit
receives the remapped labels and the (buggy) weight vector. -/
def restClfOf (s : Nat → Int → ℚ) (cx : List Int) (ii : Nat) : SVC :=
  let cc := remapLabels cx (goodIdxsRest cx (ii : Int))
  ⟨(crossvalidateC (s ii)).bestC, cc,
    fitRestWeights cc.length ((cx.filter (fun c => c == null_class_idx)).length)⟩

/-- One iteration of the `for ii in xrange(self.nr_classes - 1)` loop of
`_fit_one_vs_rest`.  The score oracle `s` takes the class index and the
tried exponent. -/
def fitRestStep (s : Nat → Int → ℚ) (Kxx : Mat) (cx : List Int)
    (st : RestFit) (ii : Nat) : Except String RestFit :=
  let good := goodIdxsRest cx (ii : Int)
  let cc := remapLabels cx good
  let nrNull := (cx.filter (fun c => c == null_class_idx)).length
  match crossvalidate_C_one_vs_rest (sliceSquare Kxx good) cc (s ii) with
  | .error e => .error e
  | .ok C =>
      .ok { st with
              clf := st.clf ++ [⟨C, cc, fitRestWeights cc.length nrNull⟩],
              cx_idxs := st.cx_idxs ++ [good] }

/-- `_fit_one_vs_rest(Kxx, cx)`.  `nr_classes = len(set(cx))`; the loop
skips the NULL class by iterating `ii` over `xrange(nr_classes - 1)`. -/
def fit_one_vs_rest (s : Nat → Int → ℚ) (Kxx : Mat) (cx : List Int) :
    Except String RestFit :=
  let nr := nrClassesOf cx
  (List.range (nr - 1)).foldlM (fitRestStep s Kxx cx) ⟨nr, [], []⟩

/-! ## The one-vs-one (`multiclass`) fit, predict and score -/

/-- `good_idxs = cx != self.null_class_idx`. -/
def goodIdxsNonNull (c : List Int) : List Bool :=
  c.map (fun l => l != null_class_idx)

/-- State built by `_fit_one_vs_one`: the single classifier and the stored
training mask `self.cx_idxs`. -/
structure OneFit where
  clf : SVC
  cx_idxs : List Bool
deriving DecidableEq

/-- `_fit_one_vs_one(Kxx, cx)` : mask out NULL samples, cross-validate `C`
on the non-null square sub-matrix, fit one multiclass classifier on the full
non-null slice (no sample weights), and store the mask. -/
def fit_one_vs_one (s : Int → ℚ) (Kxx : Mat) (cx : List Int) :
    Except String OneFit :=
  let good := goodIdxsNonNull cx
  match crossvalidate_C_one_vs_one (sliceSquare Kxx good)
      (applyMask cx good) s with
  | .error e => .error e
  | .ok C => .ok ⟨⟨C, applyMask cx good, []⟩, good⟩

/-- `_predict_one_vs_one(Kyx, cy)` : returns `(cy[good_idxs],
self.clf.predict(Kyx[np.ix_(good_idxs, self.cx_idxs)]))`.  The external
classifier's `predict` returns one label per row of its input, modelled by
the row oracle `pr`. -/
def predict_one_vs_one (pr : List ℚ → Int) (st : OneFit) (Kyx : Mat)
    (cy : List Int) : List Int × List Int :=
  let good := goodIdxsNonNull cy
  (applyMask cy good, (sliceRect Kyx good st.cx_idxs).map pr)

/-- `_score_one_vs_one(Kyx, cy)` : the external classifier's accuracy on the
non-null slice, times 100.  `scf` is the accuracy oracle. -/
def score_one_vs_one (scf : Mat → List Int → ℚ) (st : OneFit) (Kyx : Mat)
    (cy : List Int) : ℚ :=
  let good := goodIdxsNonNull cy
  scf (sliceRect Kyx good st.cx_idxs) (applyMask cy good) * 100

/-! ## The Evaluator: construction and `fit` dispatch -/

/-- The `TrecVid11Evaluation` instance.  The dynamically typed attributes
written by the two fit paths are modelled as two `Option` fields. -/
structure Evaluator where
  null_class : Int
  scenario : String
  restFit : Option RestFit
  oneFit : Option OneFit
deriving DecidableEq

/-- Score oracles for the two scenarios, threaded through `fit`. -/
structure Oracles where
  restScore : Nat → Int → ℚ
  oneScore : Int → ℚ

/-- `__init__(self, scenario='multiclass')` : stores the scenario and
`null_class_idx = 15`, then `assert scenario in ('multiclass', 'versus_null')`. -/
def Evaluator.init (scenario : String) : Except String Evaluator :=
  if scenario = "multiclass" ∨ scenario = "versus_null" then
    .ok ⟨null_class_idx, scenario, none, none⟩
  else .error "AssertionError: scenario not in (multiclass, versus_null)"

/-- `fit(self, Kxx, cx)` : dispatches on the scenario string and ends with
`return self`.  The `tuple_labels_to_list_labels` conversion (from the
external `utils` module) is the identity on labels already in list form.
The `per_slice` branch calls `_fit_per_slice`, whose first statement
references the non-existent `np.arrange`, raising `AttributeError`; an
unknown scenario string falls through every `elif` and returns `self`
unchanged. -/
def Evaluator.fit (o : Oracles) (e : Evaluator) (Kxx : Mat) (cx : List Int) :
    Except String Evaluator :=
  if e.scenario = "multiclass" then
    match fit_one_vs_one o.oneScore Kxx cx with
    | .error err => .error err
    | .ok f => .ok { e with oneFit := some f }
  else if e.scenario = "versus_null" then
    match fit_one_vs_rest o.restScore Kxx cx with
    | .error err => .error err
    | .ok f => .ok { e with restFit := some f }
  else if e.scenario = "per_slice" then
    .error "AttributeError: module numpy has no attribute arrange"
  else
    .ok e

/-! ## Concrete inputs used to instantiate the theorems -/

/-- A score oracle returning 0 for every candidate. -/
def zeroS : Int → ℚ := fun _ => 0

/-- A per-class score oracle returning 0 everywhere. -/
def restS0 : Nat → Int → ℚ := fun _ _ => 0

/-- A score oracle with a two-way tie at exponents 1 and 2. -/
def s0 : Int → ℚ := fun k => if k = 1 ∨ k = 2 then 5 else 0

/-- A predict-row oracle. -/
def pr0 : List ℚ → Int := fun _ => 0

/-- An accuracy oracle. -/
def scf0 : Mat → List Int → ℚ := fun _ _ => 0

/-- 2-by-2 identity Gram matrix. -/
def K2 : Mat := [[1, 0], [0, 1]]

/-- 3-by-3 identity Gram matrix. -/
def K3 : Mat := [[1, 0, 0], [0, 1, 0], [0, 0, 1]]

/-- 4-by-4 identity Gram matrix. -/
def K4 : Mat := [[1, 0, 0, 0], [0, 1, 0, 0], [0, 0, 1, 0], [0, 0, 0, 1]]

/-- Training labels: two class-0 samples and two NULL samples. -/
def cxW : List Int := [0, 0, 15, 15]

/-- The `_fit_one_vs_rest` state produced from `cxW` and `K4`. -/
def rW : RestFit :=
  ⟨2, [⟨pow3 7, [1, 1, -1, -1], [2, 1, 1, 1]⟩], [[true, true, true, true]]⟩

/-- Training labels whose class-0 slice starts with a NULL sample. -/
def cxBug : List Int := [15, 0, 15]

/-- The `_fit_one_vs_rest` state produced from `cxBug` and `K3`: the single
`+1` sample (position 1 of the slice) keeps weight 1 while the NULL sample
at position 0 receives weight `nr_null_samples = 2`. -/
def rBug : RestFit :=
  ⟨2, [⟨pow3 7, [-1, 1, -1], [2, 1, 1]⟩], [[true, true, true]]⟩

/-- Training labels for the one-vs-one scenario. -/
def cxOne : List Int := [0, 1, 15]

/-- The `_fit_one_vs_one` state produced from `cxOne` and `K3`. -/
def stOne : OneFit := ⟨⟨pow3 7, [0, 1], []⟩, [true, true, false]⟩

/-- Test labels for the one-vs-one scenario. -/
def cyOne : List Int := [0, 15, 1]

/-- Binary labels with one positive and two negative samples. -/
def ccP : List Int := [1, -1, -1]

/-- An Evaluator constructed for the `multiclass` scenario. -/
def e0 : Evaluator := ⟨null_class_idx, "multiclass", none, none⟩

/-- The oracle bundle of `zeroS` and `restS0`. -/
def o0 : Oracles := ⟨restS0, zeroS⟩

/-- The evaluator state after `e0.fit` on `K3`, `cxOne`. -/
def r0 : Evaluator := ⟨null_class_idx, "multiclass", none, some stOne⟩

/-! ## Basic lemmas about masks, counts and the split -/

theorem applyMask_nil (l : List α) : applyMask l [] = [] := by
  cases l <;> rfl

theorem applyMask_map_self (f : α → Bool) :
    ∀ (l : List α), applyMask l (l.map f) = l.filter f := by
  intro l
  induction l with
  | nil => rfl
  | cons a t ih =>
    cases h : f a <;> simp [applyMask, List.filter_cons, h, ih]

theorem length_applyMask_map (f : β → Bool) :
    ∀ (l2 : List β) (l1 : List α), l1.length = l2.length →
      (applyMask l1 (l2.map f)).length = (l2.filter f).length := by
  intro l2
  induction l2 with
  | nil => intro l1 h; simp [applyMask_nil]
  | cons b t2 ih =>
    intro l1 h
    cases l1 with
    | nil => simp at h
    | cons a t1 =>
      simp only [List.length_cons, Nat.succ_inj] at h
      cases hb : f b <;>
        simp [applyMask, List.filter_cons, hb, ih t1 h]

theorem countTrue_goodIdxsRest (ii : Int) (h : ii ≠ null_class_idx) :
    ∀ (cx : List Int), countTrue (goodIdxsRest cx ii) =
      cx.count ii + cx.count null_class_idx := by
  intro cx
  induction cx with
  | nil => rfl
  | cons c t ih =>
    simp only [goodIdxsRest, List.map_cons, countTrue, List.count_cons] at *
    by_cases h1 : c = ii
    · have h2 : ¬ c = null_class_idx := fun hc => h (h1.symm.trans hc)
      simp [h1, h2, ih, h, Ne.symm h]
      omega
    · by_cases h2 : c = null_class_idx
      · simp [h1, h2, ih, h, Ne.symm h]
        omega
      · simp [h1, h2, ih]

theorem dedup_length_le_one [DecidableEq α] (a : α) :
    ∀ (l : List α), (∀ x ∈ l, x = a) → l.dedup.length ≤ 1 := by
  intro l
  induction l with
  | nil => intro _; simp
  | cons b t ih =>
    intro h
    by_cases hm : b ∈ t
    · rw [List.dedup_cons_of_mem hm]
      exact ih (fun x hx => h x (List.mem_cons_of_mem _ hx))
    · have ht : t = [] := by
        cases t with
        | nil => rfl
        | cons c u =>
          exfalso
          apply hm
          have hc : c = a := h c (List.mem_cons_of_mem _ (List.mem_cons_self c u))
          have hb : b = a := h b (List.mem_cons_self b _)
          rw [hb, ← hc]
          exact List.mem_cons_self c u
      subst ht
      simp

theorem ceil3over10_pos (n : Nat) (h : 1 ≤ n) : 1 ≤ ceil3over10 n := by
  unfold ceil3over10; omega

theorem ceil3over10_lt (n : Nat) (h : 2 ≤ n) : ceil3over10 n < n := by
  unfold ceil3over10; omega

theorem ceil3over10_le (n : Nat) : ceil3over10 n ≤ n := by
  unfold ceil3over10; omega

/-! ## Lemmas about the candidate loop -/

theorem cvStep_none (s : Int → ℚ) (st : CVState) (h : st.bestScore = none)
    (k : Int) : cvStep s st k = ⟨some (s k), pow3 k, pow3 k⟩ := by
  unfold cvStep; rw [h]

theorem cvStep_some (s : Int → ℚ) (st : CVState) (b : ℚ)
    (h : st.bestScore = some b) (k : Int) :
    cvStep s st k = if b ≤ s k then ⟨some (s k), pow3 k, pow3 k⟩
                    else ⟨st.bestScore, st.bestC, pow3 k⟩ := by
  unfold cvStep; rw [h]

/-- Once the running best score strictly dominates all remaining candidate
scores, neither `best_score` nor `best_C` changes. -/
theorem foldl_cvStep_stable (s : Int → ℚ) (b : ℚ) :
    ∀ (l : List Int) (st : CVState), st.bestScore = some b →
      (∀ k ∈ l, s k < b) →
      (l.foldl (cvStep s) st).bestScore = some b ∧
      (l.foldl (cvStep s) st).bestC = st.bestC := by
  intro l
  induction l with
  | nil => intro st h1 _; exact ⟨h1, rfl⟩
  | cons a t ih =>
    intro st h1 h2
    have hstep : cvStep s st a = ⟨st.bestScore, st.bestC, pow3 a⟩ := by
      rw [cvStep_some s st b h1,
        if_neg (not_le.mpr (h2 a (List.mem_cons_self a t)))]
    rw [List.foldl_cons, hstep]
    exact ih ⟨st.bestScore, st.bestC, pow3 a⟩ h1
      (fun k hk => h2 k (List.mem_cons_of_mem _ hk))

/-- If the candidate list decomposes as `l1 ++ k2 :: l2` where every score
on `l1` is at most `s k2` and every score on `l2` is strictly below `s k2`,
the loop returns `3 ** k2`: the `>=` update makes the last top scorer win. -/
theorem foldl_cvStep_split (s : Int → ℚ) (k2 : Int) (l2 : List Int)
    (h2 : ∀ k ∈ l2, s k < s k2) :
    ∀ (l1 : List Int) (st : CVState),
      (st.bestScore = none ∨ ∃ b, st.bestScore = some b ∧ b ≤ s k2) →
      (∀ k ∈ l1, s k ≤ s k2) →
      ((l1 ++ k2 :: l2).foldl (cvStep s) st).bestC = pow3 k2 := by
  intro l1
  induction l1 with
  | nil =>
    intro st hst _
    rw [List.nil_append, List.foldl_cons]
    have hstep : cvStep s st k2 = ⟨some (s k2), pow3 k2, pow3 k2⟩ := by
      rcases hst with h | ⟨b, hb, hle⟩
      · exact cvStep_none s st h k2
      · rw [cvStep_some s st b hb, if_pos hle]
    rw [hstep]
    exact (foldl_cvStep_stable s (s k2) l2
      ⟨some (s k2), pow3 k2, pow3 k2⟩ rfl h2).2
  | cons a t ih =>
    intro st hst h1
    rw [List.cons_append, List.foldl_cons]
    apply ih
    · rcases hst with h | ⟨b, hb, hle⟩
      · exact Or.inr ⟨s a, by rw [cvStep_none s st h a],
          h1 a (List.mem_cons_self a t)⟩
      · by_cases hc : b ≤ s a
        · exact Or.inr ⟨s a, by rw [cvStep_some s st b hb, if_pos hc],
            h1 a (List.mem_cons_self a t)⟩
        · exact Or.inr ⟨b, by rw [cvStep_some s st b hb, if_neg hc]; exact hb,
            hle⟩
    · exact fun k hk => h1 k (List.mem_cons_of_mem _ hk)

/-- The returned `best_C` is either untouched or one of the tried powers. -/
theorem foldl_cvStep_bestC_mem (s : Int → ℚ) :
    ∀ (l : List Int) (st : CVState),
      (l.foldl (cvStep s) st).bestC = st.bestC ∨
      (l.foldl (cvStep s) st).bestC ∈ l.map pow3 := by
  intro l
  induction l with
  | nil => intro st; exact Or.inl rfl
  | cons a t ih =>
    intro st
    rw [List.foldl_cons, List.map_cons]
    have hcv : (cvStep s st a).bestC = pow3 a ∨
        (cvStep s st a).bestC = st.bestC := by
      cases hbs : st.bestScore with
      | none => exact Or.inl (by rw [cvStep_none s st hbs a])
      | some b =>
        rw [cvStep_some s st b hbs a]
        by_cases hc : b ≤ s a
        · exact Or.inl (by rw [if_pos hc])
        · exact Or.inr (by rw [if_neg hc])
    rcases ih (cvStep s st a) with h | h
    · rcases hcv with h2 | h2
      · exact Or.inr (by rw [h, h2]; exact List.mem_cons_self _ _)
      · exact Or.inl (by rw [h, h2])
    · exact Or.inr (List.mem_cons_of_mem _ h)

theorem crossvalidateC_bestC_mem (s : Int → ℚ) :
    (crossvalidateC s).bestC ∈ log3cs.map pow3 := by
  unfold crossvalidateC
  have h0 : log3cs = -2 :: [-1, 0, 1, 2, 3, 4, 5, 6, 7] := rfl
  rw [h0, List.foldl_cons, List.map_cons,
    cvStep_none s cvInit rfl (-2)]
  rcases foldl_cvStep_bestC_mem s [-1, 0, 1, 2, 3, 4, 5, 6, 7]
      ⟨some (s (-2)), pow3 (-2), pow3 (-2)⟩ with h | h
  · rw [h]; exact List.mem_cons_self _ _
  · exact List.mem_cons_of_mem _ h

/-- The classifier's `C` attribute is left at the last value tried. -/
theorem crossvalidateC_clfC (s : Int → ℚ) : (crossvalidateC s).clfC = pow3 7 := by
  unfold crossvalidateC
  have h0 : log3cs = [-2, -1, 0, 1, 2, 3, 4, 5, 6] ++ [7] := rfl
  rw [h0, List.foldl_append, List.foldl_cons, List.foldl_nil]
  cases hbs : (List.foldl (cvStep s) cvInit
      [-2, -1, 0, 1, 2, 3, 4, 5, 6]).bestScore with
  | none => rw [cvStep_none s _ hbs 7]
  | some b =>
    rw [cvStep_some s _ b hbs 7]
    by_cases hc : b ≤ s 7
    · rw [if_pos hc]
    · rw [if_neg hc]

/-- With a constant score oracle every candidate ties, and the `>=` update
leaves the last candidate selected. -/
theorem crossvalidateC_const (c : ℚ) :
    crossvalidateC (fun _ => c) = ⟨some c, pow3 7, pow3 7⟩ := by
  simp [crossvalidateC, log3cs, cvStep, cvInit]

theorem crossvalidate_rest_ok (K : Mat) (cc : List Int) (s : Int → ℚ) (C : ℚ)
    (h : crossvalidate_C_one_vs_rest K cc s = .ok C) :
    C = (crossvalidateC s).bestC ∧ nrClassesOf cc = 2 := by
  unfold crossvalidate_C_one_vs_rest at h
  by_cases h1 : shapeM K ≠ shapeN K
  · rw [if_pos h1] at h; exact absurd h (by simp)
  · rw [if_neg h1] at h
    by_cases h2 : nrClassesOf cc ≠ 2
    · rw [if_pos h2] at h; exact absurd h (by simp)
    · rw [if_neg h2] at h
      refine ⟨?_, not_ne_iff.mp h2⟩
      injection h with h
      exact h.symm

theorem crossvalidate_one_ok (K : Mat) (cc : List Int) (s : Int → ℚ) (C : ℚ)
    (h : crossvalidate_C_one_vs_one K cc s = .ok C) :
    C = (crossvalidateC s).bestC := by
  unfold crossvalidate_C_one_vs_one at h
  by_cases h1 : shapeM K ≠ shapeN K
  · rw [if_pos h1] at h; exact absurd h (by simp)
  · rw [if_neg h1] at h
    by_cases h2 : nrClassesOf cc < 2
    · rw [if_pos h2] at h; exact absurd h (by simp)
    · rw [if_neg h2] at h
      injection h with h
      exact h.symm

/-! ## Lemmas about `_fit_one_vs_rest` and `_fit_one_vs_one` -/

theorem except_error_bind (e : ε) (f : α → Except ε β) :
    (Except.error e : Except ε α) >>= f = Except.error e := rfl

theorem except_ok_bind (a : α) (f : α → Except ε β) :
    (Except.ok a : Except ε α) >>= f = f a := rfl

theorem fitRestStep_ok (s : Nat → Int → ℚ) (Kxx : Mat) (cx : List Int)
    (st st2 : RestFit) (ii : Nat)
    (h : fitRestStep s Kxx cx st ii = .ok st2) :
    st2 = ⟨st.nr_classes, st.clf ++ [restClfOf s cx ii],
           st.cx_idxs ++ [goodIdxsRest cx (ii : Int)]⟩ ∧
    nrClassesOf (remapLabels cx (goodIdxsRest cx (ii : Int))) = 2 := by
  simp only [fitRestStep] at h
  cases hcv : crossvalidate_C_one_vs_rest
      (sliceSquare Kxx (goodIdxsRest cx (ii : Int)))
      (remapLabels cx (goodIdxsRest cx (ii : Int))) (s ii) with
  | error e => rw [hcv] at h; exact absurd h (by simp)
  | ok C =>
    rw [hcv] at h
    obtain ⟨hC, h2⟩ := crossvalidate_rest_ok _ _ _ _ hcv
    injection h with h
    refine ⟨?_, h2⟩
    rw [← h, hC]
    rfl

theorem fitRest_foldlM_ok (s : Nat → Int → ℚ) (Kxx : Mat) (cx : List Int) :
    ∀ (l : List Nat) (st r : RestFit),
      List.foldlM (fitRestStep s Kxx cx) st l = .ok r →
      r.nr_classes = st.nr_classes ∧
      r.clf = st.clf ++ l.map (restClfOf s cx) ∧
      r.cx_idxs = st.cx_idxs ++
        l.map (fun ii : Nat => goodIdxsRest cx (ii : Int)) ∧
      ∀ ii ∈ l, nrClassesOf (remapLabels cx (goodIdxsRest cx (ii : Int))) = 2 := by
  intro l
  induction l with
  | nil =>
    intro st r h
    simp only [List.foldlM_nil] at h
    injection h with h
    subst h
    simp
  | cons a t ih =>
    intro st r h
    rw [List.foldlM_cons] at h
    cases hs : fitRestStep s Kxx cx st a with
    | error e =>
      rw [hs, except_error_bind] at h
      exact absurd h (by simp)
    | ok st2 =>
      rw [hs, except_ok_bind] at h
      obtain ⟨hrec, h2c⟩ := fitRestStep_ok s Kxx cx st st2 a hs
      obtain ⟨ih1, ih2, ih3, ih4⟩ := ih st2 r h
      subst hrec
      refine ⟨ih1, ?_, ?_, ?_⟩
      · rw [ih2]; simp
      · rw [ih3]; simp
      · intro ii hii
        rcases List.mem_cons.mp hii with hrfl | hmem
        · rw [hrfl]; exact h2c
        · exact ih4 ii hmem

theorem fit_one_vs_rest_ok (s : Nat → Int → ℚ) (Kxx : Mat) (cx : List Int)
    (r : RestFit) (h : fit_one_vs_rest s Kxx cx = .ok r) :
    r.nr_classes = nrClassesOf cx ∧
    r.clf = (List.range (nrClassesOf cx - 1)).map (restClfOf s cx) ∧
    r.cx_idxs = (List.range (nrClassesOf cx - 1)).map
      (fun ii : Nat => goodIdxsRest cx (ii : Int)) ∧
    ∀ ii ∈ List.range (nrClassesOf cx - 1),
      nrClassesOf (remapLabels cx (goodIdxsRest cx (ii : Int))) = 2 := by
  unfold fit_one_vs_rest at h
  obtain ⟨h1, h2, h3, h4⟩ :=
    fitRest_foldlM_ok s Kxx cx (List.range (nrClassesOf cx - 1))
      ⟨nrClassesOf cx, [], []⟩ r h
  exact ⟨h1, by rw [h2]; simp, by rw [h3]; simp, h4⟩

/-- Every remapped label of the slice for the NULL class itself is `-1`. -/
theorem remap_null_all_neg (cx : List Int) :
    ∀ x ∈ remapLabels cx (goodIdxsRest cx null_class_idx), x = -1 := by
  intro x hx
  unfold remapLabels goodIdxsRest at hx
  rw [applyMask_map_self] at hx
  obtain ⟨c, hc, hrfl⟩ := List.mem_map.mp hx
  have hmem := (List.mem_filter.mp hc).2
  simp only [Bool.or_self, beq_iff_eq] at hmem
  rw [← hrfl, if_neg (by simp [hmem])]

/-- The slice for the NULL class never contains two distinct remapped
labels, so its cross-validation assert cannot pass. -/
theorem classes_remap_null_ne_two (cx : List Int) :
    nrClassesOf (remapLabels cx (goodIdxsRest cx null_class_idx)) ≠ 2 := by
  intro h
  have hle := dedup_length_le_one (-1) _ (remap_null_all_neg cx)
  unfold nrClassesOf at h
  omega

theorem fit_one_vs_one_ok (s : Int → ℚ) (Kxx : Mat) (cx : List Int)
    (st : OneFit) (h : fit_one_vs_one s Kxx cx = .ok st) :
    st = ⟨⟨(crossvalidateC s).bestC, applyMask cx (goodIdxsNonNull cx), []⟩,
          goodIdxsNonNull cx⟩ := by
  simp only [fit_one_vs_one] at h
  cases hcv : crossvalidate_C_one_vs_one
      (sliceSquare Kxx (goodIdxsNonNull cx))
      (applyMask cx (goodIdxsNonNull cx)) s with
  | error e => rw [hcv] at h; exact absurd h (by simp)
  | ok C =>
    rw [hcv] at h
    have hC := crossvalidate_one_ok _ _ _ _ hcv
    injection h with h
    rw [← h, hC]

/-! ## Evaluation lemmas on the concrete inputs -/

theorem crossvalidate_rest_const (K : Mat) (cc : List Int) (c : ℚ)
    (h1 : shapeM K = shapeN K) (h2 : nrClassesOf cc = 2) :
    crossvalidate_C_one_vs_rest K cc (fun _ => c) = .ok (pow3 7) := by
  unfold crossvalidate_C_one_vs_rest
  rw [if_neg (not_ne_iff.mpr h1), if_neg (not_ne_iff.mpr h2), crossvalidateC_const]

theorem crossvalidate_one_const (K : Mat) (cc : List Int) (c : ℚ)
    (h1 : shapeM K = shapeN K) (h2 : ¬ nrClassesOf cc < 2) :
    crossvalidate_C_one_vs_one K cc (fun _ => c) = .ok (pow3 7) := by
  unfold crossvalidate_C_one_vs_one
  rw [if_neg (not_ne_iff.mpr h1), if_neg h2, crossvalidateC_const]

theorem applyMask_goodIdxsNonNull (c : List Int) :
    applyMask c (goodIdxsNonNull c) = c.filter (fun l => l != null_class_idx) := by
  unfold goodIdxsNonNull
  exact applyMask_map_self _ c

theorem fit_one_eval : fit_one_vs_one zeroS K3 cxOne = .ok stOne := by
  simp only [fit_one_vs_one]
  rw [show crossvalidate_C_one_vs_one (sliceSquare K3 (goodIdxsNonNull cxOne))
      (applyMask cxOne (goodIdxsNonNull cxOne)) zeroS = .ok (pow3 7) from
    crossvalidate_one_const _ _ 0 (by decide) (by decide)]
  rw [show applyMask cxOne (goodIdxsNonNull cxOne) = [0, 1] from by decide,
    show goodIdxsNonNull cxOne = [true, true, false] from by decide]
  rfl

theorem fit_rest_step_eval_W :
    fitRestStep restS0 K4 cxW ⟨2, [], []⟩ 0 = .ok rW := by
  simp only [fitRestStep]
  rw [show crossvalidate_C_one_vs_rest
      (sliceSquare K4 (goodIdxsRest cxW ((0 : Nat) : Int)))
      (remapLabels cxW (goodIdxsRest cxW ((0 : Nat) : Int))) (restS0 0) =
      .ok (pow3 7) from crossvalidate_rest_const _ _ 0 (by decide) (by decide)]
  rw [show remapLabels cxW (goodIdxsRest cxW ((0 : Nat) : Int)) = [1, 1, -1, -1]
      from by decide,
    show goodIdxsRest cxW ((0 : Nat) : Int) = [true, true, true, true]
      from by decide,
    show (cxW.filter (fun c => c == null_class_idx)).length = 2 from by decide]
  rw [show ([1, 1, -1, -1] : List Int).length = 4 from rfl]
  rw [show fitRestWeights 4 2 = [2, 1, 1, 1] from by
    simp [fitRestWeights, List.replicate]]
  rfl

theorem fit_rest_eval_W : fit_one_vs_rest restS0 K4 cxW = .ok rW := by
  simp only [fit_one_vs_rest]
  rw [show nrClassesOf cxW = 2 from by decide]
  rw [show List.range (2 - 1) = [0] from by decide]
  rw [List.foldlM_cons, fit_rest_step_eval_W, except_ok_bind, List.foldlM_nil]
  rfl

theorem fit_rest_step_eval_Bug :
    fitRestStep restS0 K3 cxBug ⟨2, [], []⟩ 0 = .ok rBug := by
  simp only [fitRestStep]
  rw [show crossvalidate_C_one_vs_rest
      (sliceSquare K3 (goodIdxsRest cxBug ((0 : Nat) : Int)))
      (remapLabels cxBug (goodIdxsRest cxBug ((0 : Nat) : Int))) (restS0 0) =
      .ok (pow3 7) from crossvalidate_rest_const _ _ 0 (by decide) (by decide)]
  rw [show remapLabels cxBug (goodIdxsRest cxBug ((0 : Nat) : Int)) = [-1, 1, -1]
      from by decide,
    show goodIdxsRest cxBug ((0 : Nat) : Int) = [true, true, true]
      from by decide,
    show (cxBug.filter (fun c => c == null_class_idx)).length = 2 from by decide]
  rw [show ([-1, 1, -1] : List Int).length = 3 from rfl]
  rw [show fitRestWeights 3 2 = [2, 1, 1] from by
    simp [fitRestWeights, List.replicate]]
  rfl

theorem fit_rest_eval_Bug : fit_one_vs_rest restS0 K3 cxBug = .ok rBug := by
  simp only [fit_one_vs_rest]
  rw [show nrClassesOf cxBug = 2 from by decide]
  rw [show List.range (2 - 1) = [0] from by decide]
  rw [List.foldlM_cons, fit_rest_step_eval_Bug, except_ok_bind, List.foldlM_nil]
  rfl

theorem evaluator_fit_eval : Evaluator.fit o0 e0 K3 cxOne = .ok r0 := by
  unfold Evaluator.fit
  rw [if_pos (show e0.scenario = "multiclass" from rfl)]
  rw [show fit_one_vs_one o0.oneScore K3 cxOne = .ok stOne from fit_one_eval]
  rfl

/-! ## List lemmas for the stratified split -/

theorem take_drop_interleave_perm (t0 t1 d0 d1 : List α) :
    ((t0 ++ t1) ++ (d0 ++ d1)).Perm ((t0 ++ d0) ++ (t1 ++ d1)) := by
  have h1 : (t0 ++ t1) ++ (d0 ++ d1) = t0 ++ (t1 ++ (d0 ++ d1)) := by
    rw [List.append_assoc]
  have h3 : t0 ++ (d0 ++ (t1 ++ d1)) = (t0 ++ d0) ++ (t1 ++ d1) := by
    rw [List.append_assoc]
  rw [h1, ← h3]
  exact List.Perm.append_left t0 (List.perm_append_comm_assoc t1 d0 d1)

theorem head_mem_take (l : List α) (n : Nat) (hn : 1 ≤ n) (hl : l ≠ []) :
    ∃ i ∈ l.take n, i ∈ l := by
  cases l with
  | nil => exact absurd rfl hl
  | cons a t =>
    cases n with
    | zero => omega
    | succ m =>
      exact ⟨a, by rw [List.take_succ_cons]; exact List.mem_cons_self _ _,
        List.mem_cons_self _ _⟩

theorem exists_mem_drop (l : List α) (n : Nat) (hn : n < l.length) :
    ∃ i ∈ l.drop n, i ∈ l := by
  have hne : l.drop n ≠ [] := by
    intro hc
    have hlen := List.length_drop n l
    rw [hc] at hlen
    simp at hlen
    omega
  obtain ⟨i, hi⟩ := List.exists_mem_of_ne_nil _ hne
  exact ⟨i, hi, List.drop_subset n l hi⟩

/-! ## The claims -/

/-- **C1** (code bug).  The claim says: in the one-vs-null fit, every sample
weight passed to the final classifier fit whose remapped label is `+1`
equals `nr_null_samples`, and every `-1` weight equals 1.  The code computes
`weight[cx_ == +1] *= nr_null_samples` on a Python *list* `cx_`, so the
index is the scalar `False` and only `weight[0]` is scaled.  On
`cx = [15, 0, 15]` (class-0 slice keeps all three samples, remapped labels
`[-1, 1, -1]`, `nr_null_samples = 2`) the fit succeeds and stores weights
`[2, 1, 1]`: the unique `+1` sample (position 1) keeps weight 1 instead of
2, and the `-1` sample at position 0 is scaled to 2 instead of keeping 1. -/
theorem claim_C1_weight_bug :
    fit_one_vs_rest restS0 K3 cxBug = .ok rBug ∧
    (rBug.clf.getD 0 ⟨0, [], []⟩).fitLabels = [-1, 1, -1] ∧
    (cxBug.filter (fun c => c == null_class_idx)).length = 2 ∧
    (rBug.clf.getD 0 ⟨0, [], []⟩).fitWeights.getD 1 0 = 1 ∧
    (rBug.clf.getD 0 ⟨0, [], []⟩).fitWeights.getD 0 0 = 2 :=
  ⟨fit_rest_eval_Bug, by decide, by decide, by decide, by decide⟩

/-- **C2** (counterexample).  The claim says constructing the Evaluator with
scenario `per_slice` succeeds.  It does not: `__init__` asserts
`scenario in ('multiclass', 'versus_null')`, so `per_slice` fails the
assert at construction. -/
theorem claim_C2_per_slice_rejected :
    (Evaluator.init "per_slice").isOk = false := rfl

/-- **C2** (amended).  Construction succeeds exactly for the two scenario
names `multiclass` and `versus_null`; every other name — `per_slice`
included — fails fast with an assertion error at construction. -/
theorem claim_C2_amended (sc : String) :
    (Evaluator.init sc).isOk = true ↔
      sc = "multiclass" ∨ sc = "versus_null" := by
  unfold Evaluator.init
  by_cases h : sc = "multiclass" ∨ sc = "versus_null"
  · rw [if_pos h]; exact iff_of_true rfl h
  · rw [if_neg h]; exact iff_of_false (by decide) h

/-- **C3**.  After a completed one-vs-null fit, the Evaluator stores exactly
`nr_classes - 1` sample masks, and the number of true entries in mask `i`
equals the count of samples labelled `i` plus the count of samples carrying
the null-class label. -/
theorem claim_C3_masks (s : Nat → Int → ℚ) (Kxx : Mat) (cx : List Int)
    (r : RestFit) (h : fit_one_vs_rest s Kxx cx = .ok r) :
    r.cx_idxs.length = nrClassesOf cx - 1 ∧
    ∀ i (hi : i < r.cx_idxs.length),
      countTrue (r.cx_idxs.get ⟨i, hi⟩) =
        cx.count (i : Int) + cx.count null_class_idx := by
  obtain ⟨-, h2, h3, h4⟩ := fit_one_vs_rest_ok s Kxx cx r h
  have hlen : r.cx_idxs.length = nrClassesOf cx - 1 := by
    rw [h3, List.length_map, List.length_range]
  refine ⟨hlen, ?_⟩
  intro i hi
  have hi2 : i < nrClassesOf cx - 1 := hlen ▸ hi
  have hget : r.cx_idxs.get ⟨i, hi⟩ = goodIdxsRest cx (i : Int) := by
    rw [List.get_eq_getElem]
    simp only [h3, List.getElem_map, List.getElem_range]
  rw [hget]
  apply countTrue_goodIdxsRest
  intro hii
  have hi15 : i = 15 := by
    simp only [null_class_idx] at hii
    exact_mod_cast hii
  subst hi15
  exact classes_remap_null_ne_two cx (h4 15 (List.mem_range.mpr hi2))

/-- Witness for C3 at `cx = [0, 0, 15, 15]`: one stored mask, whose
true-count is `count 0 + count 15 = 2 + 2 = 4`. -/
theorem claim_C3_masks_witness :
    rW.cx_idxs.length = nrClassesOf cxW - 1 ∧
    countTrue (rW.cx_idxs.get ⟨0, by decide⟩) =
      cxW.count 0 + cxW.count null_class_idx :=
  ⟨(claim_C3_masks restS0 K4 cxW rW fit_rest_eval_W).1,
   (claim_C3_masks restS0 K4 cxW rW fit_rest_eval_W).2 0 (by decide)⟩

/-- **C4**.  In the shared candidate loop of both cross-validation routines,
the comparison used to update the best candidate is `>=`, so of two tied
top-scoring candidates the later-evaluated, larger `C = 3 ** k2` is the one
returned (stated for the last candidate attaining the maximum; the two tied
candidates `k1 < k2` witness the tie). -/
theorem claim_C4_tiebreak (s : Int → ℚ) (k1 k2 : Int)
    (h1 : k1 ∈ log3cs) (h2 : k2 ∈ log3cs) (hlt : k1 < k2) (htie : s k1 = s k2)
    (hmax : ∀ k ∈ log3cs, s k ≤ s k2)
    (hlast : ∀ k ∈ log3cs, s k = s k2 → k ≤ k2) :
    (crossvalidateC s).bestC = pow3 k2 ∧
    (∀ K cc C, crossvalidate_C_one_vs_rest K cc s = .ok C → C = pow3 k2) ∧
    (∀ K cc C, crossvalidate_C_one_vs_one K cc s = .ok C → C = pow3 k2) := by
  have hstrict : ∀ k ∈ log3cs, k2 < k → s k < s k2 := fun k hk hgt =>
    lt_of_le_of_ne (hmax k hk) (fun he => absurd (hlast k hk he) (not_le.mpr hgt))
  have hsplit : ∀ (l1 l2 : List Int), log3cs = l1 ++ k2 :: l2 →
      (∀ k ∈ l2, k2 < k) → (crossvalidateC s).bestC = pow3 k2 := by
    intro l1 l2 he hl2
    unfold crossvalidateC
    rw [he]
    apply foldl_cvStep_split s k2 l2
    · exact fun k hk => hstrict k
        (by rw [he]; exact List.mem_append_right l1 (List.mem_cons_of_mem k2 hk))
        (hl2 k hk)
    · exact Or.inl rfl
    · exact fun k hk => hmax k (by rw [he]; exact List.mem_append_left _ hk)
  have hcore : (crossvalidateC s).bestC = pow3 k2 := by
    have hmem : k2 = -2 ∨ k2 = -1 ∨ k2 = 0 ∨ k2 = 1 ∨ k2 = 2 ∨ k2 = 3 ∨
        k2 = 4 ∨ k2 = 5 ∨ k2 = 6 ∨ k2 = 7 := by
      simpa [log3cs] using h2
    rcases hmem with rfl | rfl | rfl | rfl | rfl | rfl | rfl | rfl | rfl | rfl
    · exact hsplit [] [-1, 0, 1, 2, 3, 4, 5, 6, 7] rfl (by decide)
    · exact hsplit [-2] [0, 1, 2, 3, 4, 5, 6, 7] rfl (by decide)
    · exact hsplit [-2, -1] [1, 2, 3, 4, 5, 6, 7] rfl (by decide)
    · exact hsplit [-2, -1, 0] [2, 3, 4, 5, 6, 7] rfl (by decide)
    · exact hsplit [-2, -1, 0, 1] [3, 4, 5, 6, 7] rfl (by decide)
    · exact hsplit [-2, -1, 0, 1, 2] [4, 5, 6, 7] rfl (by decide)
    · exact hsplit [-2, -1, 0, 1, 2, 3] [5, 6, 7] rfl (by decide)
    · exact hsplit [-2, -1, 0, 1, 2, 3, 4] [6, 7] rfl (by decide)
    · exact hsplit [-2, -1, 0, 1, 2, 3, 4, 5] [7] rfl (by decide)
    · exact hsplit [-2, -1, 0, 1, 2, 3, 4, 5, 6] [] rfl (by decide)
  exact ⟨hcore, fun K cc C h => (crossvalidate_rest_ok K cc s C h).1.trans hcore,
    fun K cc C h => (crossvalidate_one_ok K cc s C h).trans hcore⟩

/-- Witness for C4 with the oracle `s0`, which ties candidates 1 and 2 with
score 5 and gives every other candidate score 0: the loop returns
`3 ** 2`, the later of the two tied candidates. -/
theorem claim_C4_tiebreak_witness : (crossvalidateC s0).bestC = pow3 2 :=
  (claim_C4_tiebreak s0 1 2 (by decide) (by decide) (by decide)
    (by norm_num [s0])
    (by intro k hk; simp only [log3cs] at hk; fin_cases hk <;> norm_num [s0])
    (by intro k hk; simp only [log3cs] at hk; fin_cases hk <;> norm_num [s0])).1

/-- **C5** (counterexample).  The claim says the binary split leaves each of
the two classes with at least one index in the training subset regardless
of class imbalance.  With labels `[1, -1]` (one sample per class, identity
permutations `[0]` and `[1]`) the split draws `ceil(0.3 * 1) = 1` index
from each class into the cross-validation subset and the training subset
ends up empty. -/
theorem claim_C5_singleton_class :
    idxsOfLabel [1, -1] 1 = [0] ∧ idxsOfLabel [1, -1] (-1) = [1] ∧
    cvSplit [0] [1] = ([0, 1], []) := by decide

/-- **C5** (amended).  The split draws exactly `ceil(0.3 * n_class)` indices
from each class into the cross-validation subset, the two subsets partition
the class indices, each class contributes at least one index to the
cross-validation subset, and each class with **at least two** samples also
keeps at least one index in the training subset. -/
theorem claim_C5_amended (cc : List Int) (c0 c1 : Int) (rand0 rand1 : List Nat)
    (h0 : rand0.Perm (idxsOfLabel cc c0)) (h1 : rand1.Perm (idxsOfLabel cc c1))
    (hn0 : rand0 ≠ []) (hn1 : rand1 ≠ []) :
    (cvSplit rand0 rand1).1.length =
      ceil3over10 rand0.length + ceil3over10 rand1.length ∧
    ((cvSplit rand0 rand1).1 ++ (cvSplit rand0 rand1).2).Perm
      (idxsOfLabel cc c0 ++ idxsOfLabel cc c1) ∧
    (∃ i ∈ (cvSplit rand0 rand1).1, i ∈ idxsOfLabel cc c0) ∧
    (∃ i ∈ (cvSplit rand0 rand1).1, i ∈ idxsOfLabel cc c1) ∧
    (2 ≤ rand0.length → ∃ i ∈ (cvSplit rand0 rand1).2, i ∈ idxsOfLabel cc c0) ∧
    (2 ≤ rand1.length → ∃ i ∈ (cvSplit rand0 rand1).2, i ∈ idxsOfLabel cc c1) := by
  simp only [cvSplit]
  refine ⟨?_, ?_, ?_, ?_, ?_, ?_⟩
  · rw [List.length_append, List.length_take, List.length_take,
      Nat.min_eq_left (ceil3over10_le _), Nat.min_eq_left (ceil3over10_le _)]
  · have hp := take_drop_interleave_perm
      (rand0.take (ceil3over10 rand0.length))
      (rand1.take (ceil3over10 rand1.length))
      (rand0.drop (ceil3over10 rand0.length))
      (rand1.drop (ceil3over10 rand1.length))
    rw [List.take_append_drop, List.take_append_drop] at hp
    exact hp.trans (h0.append h1)
  · obtain ⟨i, hit, hil⟩ := head_mem_take rand0 _
      (ceil3over10_pos _ (List.length_pos.mpr hn0)) hn0
    exact ⟨i, List.mem_append_left _ hit, h0.subset hil⟩
  · obtain ⟨i, hit, hil⟩ := head_mem_take rand1 _
      (ceil3over10_pos _ (List.length_pos.mpr hn1)) hn1
    exact ⟨i, List.mem_append_right _ hit, h1.subset hil⟩
  · intro hlen
    obtain ⟨i, hid, hil⟩ := exists_mem_drop rand0 _ (ceil3over10_lt _ hlen)
    exact ⟨i, List.mem_append_left _ hid, h0.subset hil⟩
  · intro hlen
    obtain ⟨i, hid, hil⟩ := exists_mem_drop rand1 _ (ceil3over10_lt _ hlen)
    exact ⟨i, List.mem_append_right _ hid, h1.subset hil⟩

/-- Witness for the amended C5 on `cc = [1, -1, -1]` with permuted class
index lists `[0]` and `[2, 1]`: the negative class has two samples, so it
keeps an index in the training subset. -/
theorem claim_C5_amended_witness :
    ∃ i ∈ (cvSplit [0] [2, 1]).2, i ∈ idxsOfLabel ccP (-1) :=
  (claim_C5_amended ccP 1 (-1) [0] [2, 1] (by decide) (by decide)
    (by decide) (by decide)).2.2.2.2.2 (by decide)

/-- **C6**.  Both cross-validation routines try exactly the candidates
`C = 3 ** k` for `k = -2, ..., 7` — ten candidates on an exponential grid,
in increasing order of `k` — and the returned `C` is one of them. -/
theorem claim_C6_grid :
    log3cs = [-2, -1, 0, 1, 2, 3, 4, 5, 6, 7] ∧
    log3cs.length = 10 ∧
    List.Chain' (fun a b => a < b) log3cs ∧
    log3cs.map pow3 = [1/9, 1/3, 1, 3, 9, 27, 81, 243, 729, 2187] ∧
    (∀ s : Int → ℚ, (crossvalidateC s).bestC ∈ log3cs.map pow3) ∧
    (∀ K cc s C, crossvalidate_C_one_vs_rest K cc s = .ok C →
      C ∈ log3cs.map pow3) ∧
    (∀ K cc s C, crossvalidate_C_one_vs_one K cc s = .ok C →
      C ∈ log3cs.map pow3) := by
  refine ⟨rfl, rfl, ?_, ?_, crossvalidateC_bestC_mem, ?_, ?_⟩
  · norm_num [log3cs, List.chain'_cons]
  · simp only [log3cs, List.map_cons, List.map_nil, pow3]
    norm_num
  · intro K cc s C h
    rw [(crossvalidate_rest_ok K cc s C h).1]
    exact crossvalidateC_bestC_mem s
  · intro K cc s C h
    rw [crossvalidate_one_ok K cc s C h]
    exact crossvalidateC_bestC_mem s

/-- Witness for C6's returned-value clause: a concrete binary run returns
`3 ** 7`, which lies on the grid. -/
theorem claim_C6_grid_witness :
    crossvalidate_C_one_vs_rest K2 [1, -1] zeroS = .ok (pow3 7) ∧
    pow3 7 ∈ log3cs.map pow3 := by
  have hok : crossvalidate_C_one_vs_rest K2 [1, -1] zeroS = .ok (pow3 7) :=
    show crossvalidate_C_one_vs_rest K2 [1, -1] (fun _ => 0) = .ok (pow3 7) from
      crossvalidate_rest_const K2 [1, -1] 0 (by decide) (by decide)
  exact ⟨hok, claim_C6_grid.2.2.2.2.2.1 K2 [1, -1] zeroS (pow3 7) hok⟩

/-- **C7**.  The binary cross-validation fails with a precondition violation
whenever the sliced label vector does not contain exactly two distinct
classes (never reaching the split/search logic, i.e. never returning a
value), and with exactly two classes and a square Gram matrix the checks
pass and the search result is returned. -/
theorem claim_C7_binary_precondition (K : Mat) (cc : List Int) (s : Int → ℚ) :
    (nrClassesOf cc ≠ 2 → ∃ e, crossvalidate_C_one_vs_rest K cc s = .error e) ∧
    (shapeM K = shapeN K → nrClassesOf cc = 2 →
      crossvalidate_C_one_vs_rest K cc s = .ok (crossvalidateC s).bestC) := by
  constructor
  · intro h
    unfold crossvalidate_C_one_vs_rest
    by_cases h1 : shapeM K ≠ shapeN K
    · exact ⟨"K is not Gram matrix.", by rw [if_pos h1]⟩
    · exact ⟨"Number of classes is not two.", by rw [if_neg h1, if_pos h]⟩
  · intro hs h2
    unfold crossvalidate_C_one_vs_rest
    rw [if_neg (not_ne_iff.mpr hs), if_neg (not_ne_iff.mpr h2)]

/-- Witness for C7: one class fails, two classes pass. -/
theorem claim_C7_binary_precondition_witness :
    (∃ e, crossvalidate_C_one_vs_rest K2 [1, 1] zeroS = .error e) ∧
    crossvalidate_C_one_vs_rest K2 [1, -1] zeroS =
      .ok (crossvalidateC zeroS).bestC :=
  ⟨(claim_C7_binary_precondition K2 [1, 1] zeroS).1 (by decide),
   (claim_C7_binary_precondition K2 [1, -1] zeroS).2 (by decide) (by decide)⟩

/-- **C8**.  In the one-vs-one scenario, NULL-labelled samples are excluded
from the fitted classifier's training labels and from every score/predict
computation: predict returns the non-null true labels paired with one
prediction per non-null test sample, and score consumes only the non-null
slice. -/
theorem claim_C8_null_excluded (s : Int → ℚ) (pr : List ℚ → Int)
    (scf : Mat → List Int → ℚ) (Kxx Kyx : Mat) (cx cy : List Int)
    (st : OneFit) (hfit : fit_one_vs_one s Kxx cx = .ok st)
    (hlen : Kyx.length = cy.length) :
    st.clf.fitLabels = cx.filter (fun l => l != null_class_idx) ∧
    (predict_one_vs_one pr st Kyx cy).1 =
      cy.filter (fun l => l != null_class_idx) ∧
    (predict_one_vs_one pr st Kyx cy).2.length =
      (cy.filter (fun l => l != null_class_idx)).length ∧
    score_one_vs_one scf st Kyx cy =
      scf (sliceRect Kyx (goodIdxsNonNull cy) st.cx_idxs)
        (cy.filter (fun l => l != null_class_idx)) * 100 := by
  have hst := fit_one_vs_one_ok s Kxx cx st hfit
  subst hst
  refine ⟨applyMask_goodIdxsNonNull cx, applyMask_goodIdxsNonNull cy, ?_, ?_⟩
  · simp only [predict_one_vs_one, sliceRect, List.length_map]
    unfold goodIdxsNonNull
    exact length_applyMask_map _ cy Kyx hlen
  · simp only [score_one_vs_one]
    rw [applyMask_goodIdxsNonNull cy]

/-- Witness for C8 at `cx = [0, 1, 15]`, `cy = [0, 15, 1]`: predict returns
the two non-null true labels and two predictions. -/
theorem claim_C8_null_excluded_witness :
    (predict_one_vs_one pr0 stOne K3 cyOne).1 =
      cyOne.filter (fun l => l != null_class_idx) ∧
    (predict_one_vs_one pr0 stOne K3 cyOne).2.length =
      (cyOne.filter (fun l => l != null_class_idx)).length :=
  ⟨(claim_C8_null_excluded zeroS pr0 scf0 K3 K3 cxOne cyOne stOne
      fit_one_eval rfl).2.1,
   (claim_C8_null_excluded zeroS pr0 scf0 K3 K3 cxOne cyOne stOne
      fit_one_eval rfl).2.2.1⟩

/-- **C9**.  The candidate loop leaves the classifier's `C` attribute at the
last value tried, `3 ** 7`, for every score oracle; the callers then refit
with the selected `C`: every classifier in the one-vs-null bank carries the
returned best `C` and was fit on its full slice, and the one-vs-one
classifier carries the returned best `C` and was fit on the full non-null
slice. -/
theorem claim_C9_refit (s1 : Nat → Int → ℚ) (s2 : Int → ℚ) (Kxx Kyy : Mat)
    (cx cz : List Int) (r : RestFit) (st : OneFit)
    (hrest : fit_one_vs_rest s1 Kxx cx = .ok r)
    (hone : fit_one_vs_one s2 Kyy cz = .ok st) :
    (∀ sc : Int → ℚ, (crossvalidateC sc).clfC = pow3 7) ∧
    (∀ i (hi : i < r.clf.length),
      (r.clf.get ⟨i, hi⟩).C = (crossvalidateC (s1 i)).bestC ∧
      (r.clf.get ⟨i, hi⟩).fitLabels =
        remapLabels cx (goodIdxsRest cx (i : Int))) ∧
    st.clf.C = (crossvalidateC s2).bestC ∧
    st.clf.fitLabels = applyMask cz (goodIdxsNonNull cz) := by
  obtain ⟨-, h2, -, -⟩ := fit_one_vs_rest_ok s1 Kxx cx r hrest
  have hst := fit_one_vs_one_ok s2 Kyy cz st hone
  refine ⟨crossvalidateC_clfC, ?_, ?_, ?_⟩
  · intro i hi
    have hget : r.clf.get ⟨i, hi⟩ = restClfOf s1 cx i := by
      rw [List.get_eq_getElem]
      simp only [h2, List.getElem_map, List.getElem_range]
    rw [hget]
    exact ⟨rfl, rfl⟩
  · rw [hst]
  · rw [hst]

/-- Witness for C9: the loop's final `C` attribute and the refit of the
one-vs-one classifier, at the concrete fitted states. -/
theorem claim_C9_refit_witness :
    (crossvalidateC zeroS).clfC = pow3 7 ∧
    stOne.clf.C = (crossvalidateC zeroS).bestC :=
  (fun h => ⟨h.1 zeroS, h.2.2.1⟩)
    (claim_C9_refit restS0 zeroS K4 K3 cxW cxOne rW stOne
      fit_rest_eval_W fit_one_eval)

/-- **C10**.  Whenever `fit` succeeds it returns the Evaluator instance
itself (the same configuration, mutated in place), enabling method
chaining, for every configured scenario. -/
theorem claim_C10_fit_returns_self (o : Oracles) (e r : Evaluator) (Kxx : Mat)
    (cx : List Int) (h : Evaluator.fit o e Kxx cx = .ok r) :
    r.scenario = e.scenario ∧ r.null_class = e.null_class := by
  unfold Evaluator.fit at h
  by_cases h1 : e.scenario = "multiclass"
  · rw [if_pos h1] at h
    cases hf : fit_one_vs_one o.oneScore Kxx cx with
    | error err => rw [hf] at h; exact absurd h (by simp)
    | ok f =>
      rw [hf] at h
      injection h with h
      rw [← h]
      exact ⟨rfl, rfl⟩
  · rw [if_neg h1] at h
    by_cases h2 : e.scenario = "versus_null"
    · rw [if_pos h2] at h
      cases hf : fit_one_vs_rest o.restScore Kxx cx with
      | error err => rw [hf] at h; exact absurd h (by simp)
      | ok f =>
        rw [hf] at h
        injection h with h
        rw [← h]
        exact ⟨rfl, rfl⟩
    · rw [if_neg h2] at h
      by_cases h3 : e.scenario = "per_slice"
      · rw [if_pos h3] at h; exact absurd h (by simp)
      · rw [if_neg h3] at h
        injection h with h
        rw [← h]
        exact ⟨rfl, rfl⟩

/-- Witness for C10: a successful `multiclass` fit preserves the instance
configuration. -/
theorem claim_C10_fit_returns_self_witness :
    r0.scenario = e0.scenario ∧ r0.null_class = e0.null_class :=
  claim_C10_fit_returns_self o0 e0 r0 K3 cxOne evaluator_fit_eval

end TrecVid11
